import Mathlib

/-!
# Verification of the go-auth-service authentication and session engine

Shallow embedding of the core of `Stewz00/go-auth-service`:

* `internal/repository/user_repository.go` — the user/session store operations
  (`GetUserByEmail`, `UpdateLastLogin`, `IncrementFailedAttempts`,
  `CreateSession`, `RevokeSession`, `IsSessionValid`), modelled as pure
  functions over an explicit `Store` of user and session rows whose semantics
  follow the SQL statements in the source.
* the `service` package (`AuthService`) — `LoginUser`, `ValidateToken`,
  `LogoutUser`, with the golang-jwt v5 library behaviour (keyfunc algorithm
  check, signature verification, `exp` validation, in that order) modelled
  over an abstract token type.
* `internal/middleware/rate_limiter.go` — the in-memory per-key
  `rateLimiter.isAllowed` counter.

Times are Unix seconds as `Int` (Go compares `time.Time` values; the tokens
store second-granularity Unix stamps).  Database/infrastructure failures
(connection errors etc.) are outside the model: every store operation here is
the success-path semantics of its SQL statement.
-/

namespace GoAuth

/-- Errors declared in `internal/repository/user_repository.go` plus `noRows`
for `pgx.ErrNoRows` escaping from a `QueryRow ... RETURNING` with no matching
row (returned raw by the Go code, distinct from the named errors). -/
inductive RepoError where
  | userNotFound
  | duplicateEmail
  | sessionNotFound
  | tooManyAttempts
  | noRows
  deriving DecidableEq, Repr

/-- A row of the `users` table (`internal/model/user.go` plus the `is_active`
and `last_login` columns used by the repository SQL). -/
structure User where
  id : Int
  email : String
  password : String
  failedAttempts : Int
  isActive : Bool
  lastLogin : Option Int
  deriving DecidableEq, Repr

/-- A row of the `sessions` table (`user_id`, `token_id`, `expires_at`,
`is_revoked`). -/
structure Session where
  userId : Int
  tokenId : String
  expiresAt : Int
  isRevoked : Bool
  deriving DecidableEq, Repr

/-- The database state visible to the repository. -/
structure Store where
  users : List User
  sessions : List Session
  deriving DecidableEq, Repr

/-- Model of `bcrypt.GenerateFromPassword`: an injective digest of the
plaintext.  Salting/cost are irrelevant to the verified properties; what the
service relies on is only the bcrypt contract that
`CompareHashAndPassword(digest, pw)` succeeds exactly when `digest` was
generated from `pw`. -/
def bcryptHash (password : String) : String :=
  String.append "bc2a12$" password

/-- Model of `bcrypt.CompareHashAndPassword`: succeeds iff the digest matches
the plaintext. -/
def bcryptCompare (digest password : String) : Bool :=
  digest == bcryptHash password

/-- `GetUserByEmail`: `SELECT ... FROM users WHERE email = $1 AND is_active =
true`; `pgx.ErrNoRows` is mapped to `ErrUserNotFound`. -/
def getUserByEmail (st : Store) (email : String) : Except RepoError User :=
  match st.users.find? (fun u => u.email == email && u.isActive) with
  | none => .error .userNotFound
  | some u => .ok u

/-- `UpdateLastLogin`: `UPDATE users SET last_login = CURRENT_TIMESTAMP,
failed_login_attempts = 0 WHERE id = $1`. -/
def updateLastLogin (st : Store) (userId : Int) (now : Int) : Store :=
  { st with users := st.users.map (fun u =>
      if u.id == userId then { u with lastLogin := some now, failedAttempts := 0 } else u) }

/-- First SQL statement of `IncrementFailedAttempts`: `UPDATE users SET
failed_login_attempts = failed_login_attempts + 1 WHERE id = $1 RETURNING
failed_login_attempts`.  Returns the updated store together with the returned
counter (`none` when no row matched, i.e. `pgx.ErrNoRows`). -/
def incrementAttemptsStep (st : Store) (userId : Int) : Store × Option Int :=
  match st.users.find? (fun u => u.id == userId) with
  | none => (st, none)
  | some u =>
      ({ st with users := st.users.map (fun v =>
          if v.id == userId then { v with failedAttempts := v.failedAttempts + 1 } else v) },
       some (u.failedAttempts + 1))

/-- Second SQL statement of `IncrementFailedAttempts`, executed only when the
returned counter is ≥ 5: `UPDATE users SET is_active = false WHERE id = $1`. -/
def deactivateStep (st : Store) (userId : Int) : Store :=
  { st with users := st.users.map (fun v =>
      if v.id == userId then { v with isActive := false } else v) }

/-- `IncrementFailedAttempts`: the increment statement, then — in a separate
statement — the deactivation when the new counter is ≥ 5, in which case
`ErrTooManyAttempts` is returned. -/
def incrementFailedAttempts (st : Store) (userId : Int) : Store × Option RepoError :=
  match incrementAttemptsStep st userId with
  | (st1, none) => (st1, some .noRows)
  | (st1, some attempts) =>
      if 5 ≤ attempts then (deactivateStep st1 userId, some .tooManyAttempts)
      else (st1, none)

/-- The sequence of database states produced by one `IncrementFailedAttempts`
call, one entry per executed SQL statement (initial state included).  The last
entry is the final state of `incrementFailedAttempts`. -/
def incrementFailedAttemptsTrace (st : Store) (userId : Int) : List Store :=
  match incrementAttemptsStep st userId with
  | (st1, none) => [st, st1]
  | (st1, some attempts) =>
      if 5 ≤ attempts then [st, st1, deactivateStep st1 userId] else [st, st1]

/-- `CreateSession`: `INSERT INTO sessions (user_id, token_id, expires_at)
VALUES ($1, $2, $3)` (`is_revoked` defaults to false). -/
def createSession (st : Store) (userId : Int) (tokenId : String) (expiresAt : Int) : Store :=
  { st with sessions := st.sessions ++ [{ userId, tokenId, expiresAt, isRevoked := false }] }

/-- `RevokeSession`: `UPDATE sessions SET is_revoked = true WHERE token_id =
$1`; `ErrSessionNotFound` iff the update affected no row. -/
def revokeSession (st : Store) (tokenId : String) : Except RepoError Store :=
  if st.sessions.any (fun s => s.tokenId == tokenId) then
    .ok { st with sessions := st.sessions.map (fun s =>
        if s.tokenId == tokenId then { s with isRevoked := true } else s) }
  else
    .error .sessionNotFound

/-- `IsSessionValid`: select the session row for `tokenId`; `(false, nil)` on
no row; otherwise `!is_revoked && time.Now().Before(expires_at)` — expiry is
strict (`now < expiresAt`). -/
def isSessionValid (st : Store) (now : Int) (tokenId : String) : Except RepoError Bool :=
  match st.sessions.find? (fun s => s.tokenId == tokenId) with
  | none => .ok false
  | some s => .ok (!s.isRevoked && decide (now < s.expiresAt))

/-! ## JWT model (golang-jwt v5 as used by the service) -/

/-- Signing algorithms that occur: the HMAC family is represented by `hs256`
(the one the service signs with; HS384/HS512 behave identically here), `rs256`
stands for any non-HMAC method, `algNone` for the unsigned method used only by
`generateTokenID`. -/
inductive Alg where
  | hs256
  | rs256
  | algNone
  deriving DecidableEq, Repr

/-- A claim value of `jwt.MapClaims` (`map[string]any`); the service only ever
stores strings and integers. -/
inductive ClaimVal where
  | str (s : String)
  | int (n : Int)
  deriving DecidableEq, Repr

/-- `jwt.MapClaims`, as an association list (first binding wins). -/
abbrev Claims := List (String × ClaimVal)

/-- Map lookup `claims[k]`: `none` when the key is absent. -/
def lookupClaim (cs : Claims) (k : String) : Option ClaimVal :=
  (cs.find? (fun p => p.1 == k)).map (fun p => p.2)

/-- The Go type assertion `v.(string)` on a map lookup: `none` (a panic in Go)
when the entry is absent or not a string. -/
def claimAsString (v : Option ClaimVal) : Option String :=
  match v with
  | some (.str s) => some s
  | _ => none

def encodeClaimVal (v : ClaimVal) : String :=
  match v with
  | .str s => String.append "s:" s
  | .int n => String.append "i:" (toString n)

def encodeAlg (a : Alg) : String :=
  match a with
  | .hs256 => "HS256"
  | .rs256 => "RS256"
  | .algNone => "none"

def encodeClaims (cs : Claims) : String :=
  cs.foldr (fun p acc => p.1 ++ "=" ++ encodeClaimVal p.2 ++ ";" ++ acc) ""

/-- Ideal MAC over the token payload: verification recomputes it from the key
and payload and compares. -/
def macOf (key : String) (a : Alg) (cs : Claims) : String :=
  key ++ "|" ++ encodeAlg a ++ "|" ++ encodeClaims cs

/-- A (decoded) compact JWT: header algorithm, payload claims, signature. -/
structure Token where
  alg : Alg
  claims : Claims
  mac : String
  deriving DecidableEq, Repr

/-- `jwt.NewWithClaims(...).SignedString(key)`. -/
def signToken (key : String) (a : Alg) (cs : Claims) : Token :=
  { alg := a, claims := cs, mac := macOf key a cs }

/-- Outcome of `jwt.Parse` as observed by the service: `ok` (token valid),
`expired` (`errors.Is(err, jwt.ErrTokenExpired)`), or `malformed` (any other
parse/verify error: keyfunc rejection, bad signature, bad claim types). -/
inductive ParseResult where
  | ok (cs : Claims)
  | expired
  | malformed
  deriving DecidableEq, Repr

/-- `jwt.Parse(tokenString, keyfunc)` with the service keyfunc, jwt v5 order:
1. the keyfunc rejects any method that is not `*jwt.SigningMethodHMAC`;
2. the signature is verified against the key;
3. claims are validated: a numeric `exp` makes the token valid only while
   `now < exp`; a non-numeric `exp` is a claims error; an absent `exp` is
   accepted (not required by default). -/
def jwtParseHMAC (key : String) (now : Int) (t : Token) : ParseResult :=
  if t.alg != Alg.hs256 then .malformed
  else if t.mac != macOf key t.alg t.claims then .malformed
  else
    match lookupClaim t.claims "exp" with
    | some (.int e) => if now < e then .ok t.claims else .expired
    | some _ => .malformed
    | none => .ok t.claims

/-! ## Service layer (`AuthService`) -/

/-- The error taxonomy of the `service` package; `repo e` is a repository
error propagated verbatim (`return "", err`). -/
inductive AuthError where
  | invalidCredentials
  | accountLocked
  | invalidToken
  | tokenExpired
  | repo (e : RepoError)
  deriving DecidableEq, Repr

/-- `tokenExpiry`: 24 hours, in seconds (`24 * time.Hour`, `Unix()` stamps). -/
def tokenExpiry : Int := 86400

/-- The claims map built by `LoginUser`:
`{"sub": user.ID, "email": user.Email, "exp": ..., "jti": ...}`. -/
def loginClaims (uid : Int) (email : String) (exp : Int) (jti : String) : Claims :=
  [("sub", .int uid), ("email", .str email), ("exp", .int exp), ("jti", .str jti)]

/-- `AuthService.LoginUser`.  `now` is the call time, `jti` the fresh token id
produced by `generateTokenID()`.  Returns the outcome together with the store
as left behind (the store mutations persist even when an error is returned). -/
def loginUser (st : Store) (secret : String) (now : Int) (jti : String)
    (email password : String) : Except AuthError Token × Store :=
  match getUserByEmail st email with
  | .error .userNotFound => (.error .invalidCredentials, st)
  | .error e => (.error (.repo e), st)
  | .ok user =>
    if 5 ≤ user.failedAttempts then (.error .accountLocked, st)
    else if bcryptCompare user.password password then
      let st1 := updateLastLogin st user.id now
      let exp := now + tokenExpiry
      let tok := signToken secret .hs256 (loginClaims user.id user.email exp jti)
      (.ok tok, createSession st1 user.id jti exp)
    else
      match incrementFailedAttempts st user.id with
      | (st1, some .tooManyAttempts) => (.error .accountLocked, st1)
      | (st1, some e) => (.error (.repo e), st1)
      | (st1, none) => (.error .invalidCredentials, st1)

/-- `AuthService.ValidateToken`.  The outer `Option` is definedness: `none`
models the panic of the unchecked type assertion `claims["jti"].(string)` when
the parsed claims carry no string `jti`. -/
def validateToken (st : Store) (secret : String) (now : Int) (t : Token) :
    Option (Except AuthError Claims) :=
  match jwtParseHMAC secret now t with
  | .expired => some (.error .tokenExpired)
  | .malformed => some (.error .invalidToken)
  | .ok cs =>
    match claimAsString (lookupClaim cs "jti") with
    | none => none
    | some jti =>
      match isSessionValid st now jti with
      | .error e => some (.error (.repo e))
      | .ok true => some (.ok cs)
      | .ok false => some (.error .invalidToken)

/-- `AuthService.LogoutUser`.  Any parse error (expiry included) becomes
`ErrInvalidToken`; a token whose session is no longer valid is rejected as
`ErrInvalidToken` before `RevokeSession` is reached.  The outer `Option` is
the same `jti`-assertion partiality as in `validateToken`. -/
def logoutUser (st : Store) (secret : String) (now : Int) (t : Token) :
    Option (Except AuthError Store) :=
  match jwtParseHMAC secret now t with
  | .expired => some (.error .invalidToken)
  | .malformed => some (.error .invalidToken)
  | .ok cs =>
    match claimAsString (lookupClaim cs "jti") with
    | none => none
    | some jti =>
      match isSessionValid st now jti with
      | .error e => some (.error (.repo e))
      | .ok false => some (.error .invalidToken)
      | .ok true =>
        match revokeSession st jti with
        | .error e => some (.error (.repo e))
        | .ok st2 => some (.ok st2)

/-! ## Rate limiter (`internal/middleware/rate_limiter.go`) -/

/-- A `visitor` record: request count and last access time. -/
structure Visitor where
  count : Int
  lastAccess : Int
  deriving DecidableEq, Repr

/-- The `rateLimiter` state: the visitors map (association list, first binding
wins) plus the configured limit and timeframe. -/
structure RateLimiter where
  visitors : List (String × Visitor)
  limit : Int
  timeframe : Int
  deriving DecidableEq, Repr

def lookupVisitor (m : List (String × Visitor)) (ip : String) : Option Visitor :=
  (m.find? (fun p => p.1 == ip)).map (fun p => p.2)

def updateVisitor (m : List (String × Visitor)) (ip : String) (v : Visitor) :
    List (String × Visitor) :=
  m.map (fun p => if p.1 == ip then (ip, v) else p)

/-- `newRateLimiter`. -/
def newRateLimiter (limit timeframe : Int) : RateLimiter :=
  { visitors := [], limit := limit, timeframe := timeframe }

/-- `rateLimiter.isAllowed(ip)` at time `now` (the body runs under the mutex,
so one call is one atomic step):
* unknown ip: insert `{1, now}` and admit;
* `now.Sub(v.lastAccess) > rl.timeframe`: reset to `{1, now}` and admit;
* `v.count >= rl.limit`: reject, state unchanged;
* otherwise increment the count, refresh `lastAccess`, admit. -/
def isAllowed (rl : RateLimiter) (now : Int) (ip : String) : RateLimiter × Bool :=
  match lookupVisitor rl.visitors ip with
  | none =>
      ({ rl with visitors := rl.visitors ++ [(ip, { count := 1, lastAccess := now })] }, true)
  | some v =>
      if rl.timeframe < now - v.lastAccess then
        ({ rl with visitors := updateVisitor rl.visitors ip { count := 1, lastAccess := now } }, true)
      else if rl.limit ≤ v.count then
        (rl, false)
      else
        ({ rl with visitors :=
            updateVisitor rl.visitors ip { count := v.count + 1, lastAccess := now } }, true)

/-- Run a sequence of requests `(time, ip)` through the limiter, collecting
the admit/reject decisions in order. -/
def runLimiter (rl : RateLimiter) (reqs : List (Int × String)) :
    RateLimiter × List Bool :=
  match reqs with
  | [] => (rl, [])
  | (now, ip) :: rest =>
      let step := isAllowed rl now ip
      let tail := runLimiter step.1 rest
      (tail.1, step.2 :: tail.2)

/-- The admit/reject pattern of a burst: with `budget` remaining admissions,
the first `budget` of `k` requests are admitted and the rest rejected. -/
def expectedAdmits : Nat → Nat → List Bool
  | _, 0 => []
  | 0, k + 1 => false :: expectedAdmits 0 k
  | b + 1, k + 1 => true :: expectedAdmits b k

/-- Constructor shorthand for a `users` row. -/
def mkUser (uid : Int) (email digest : String) (n : Int) (active : Bool) (ll : Option Int) : User :=
  { id := uid, email := email, password := digest, failedAttempts := n,
    isActive := active, lastLogin := ll }

/-- Constructor shorthand for a `sessions` row. -/
def mkSession (uid : Int) (j : String) (e : Int) (r : Bool) : Session :=
  { userId := uid, tokenId := j, expiresAt := e, isRevoked := r }

/-- The account used in the concrete lockout scenario. -/
def lockUser (n : Int) (active : Bool) : User :=
  { id := 1, email := "a@x.com", password := bcryptHash "password123",
    failedAttempts := n, isActive := active, lastLogin := none }

/-- The account used in the concrete non-atomicity scenario. -/
def fourFailUser (n : Int) (active : Bool) : User :=
  { id := 1, email := "a@x.com", password := "h",
    failedAttempts := n, isActive := active, lastLogin := none }

end GoAuth

namespace GoAuth

/-! ## Claim theorems and witnesses -/

lemma loginUser_fail_step (uid : Int) (email digest wrongPw secret j : String)
    (t : Int) (n : Int) (hn : n + 1 < 5)
    (hbad : bcryptCompare digest wrongPw = false) (ll : Option Int) (ss : List Session) :
    loginUser { users := [mkUser uid email digest n true ll], sessions := ss }
      secret t j email wrongPw =
    (.error .invalidCredentials,
     { users := [mkUser uid email digest (n + 1) true ll], sessions := ss }) := by
  have h5 : ¬ (5 : Int) ≤ n := by omega
  have h5' : ¬ (5 : Int) ≤ n + 1 := by omega
  simp [loginUser, getUserByEmail, incrementFailedAttempts, incrementAttemptsStep,
        mkUser, hbad, h5, h5', List.find?]

lemma loginUser_success_step (uid : Int) (email digest pw secret j : String)
    (t : Int) (n : Int) (hn : n < 5)
    (hok : bcryptCompare digest pw = true) (ll : Option Int) (ss : List Session) :
    loginUser { users := [mkUser uid email digest n true ll], sessions := ss }
      secret t j email pw =
    (.ok (signToken secret .hs256 (loginClaims uid email (t + tokenExpiry) j)),
     { users := [mkUser uid email digest 0 true (some t)],
       sessions := ss ++ [mkSession uid j (t + tokenExpiry) false] }) := by
  have h5 : ¬ (5 : Int) ≤ n := by omega
  simp [loginUser, getUserByEmail, updateLastLogin, createSession, mkUser, mkSession,
        hok, h5, List.find?]

/-- C1: per the spec, after exactly 5 consecutive failed logins the 6th
`LoginUser` call with the correct password must be rejected with
`ErrAccountLocked` and never with `ErrInvalidCredentials`.  The code violates
this (and its own integration test, which expects the 403 "Account is locked"
response here): the 5th failure sets `is_active = false`, and `GetUserByEmail`
filters `WHERE is_active = true`, so the locked user reads as not-found and
the 6th call returns `ErrInvalidCredentials`.  This theorem evaluates the
model at that failing input. -/
theorem loginUser_sixth_attempt_returns_invalidCredentials :
    (let st0 : Store := { users := [lockUser 0 true], sessions := [] }
     let fail := fun st => (loginUser st "secret" 0 "tid" "a@x.com" "wrongpassword").2
     let st5 := fail (fail (fail (fail (fail st0))))
     ((loginUser (fail (fail (fail (fail st0)))) "secret" 0 "tid" "a@x.com" "wrongpassword").1,
      st5.users,
      (loginUser st5 "secret" 0 "tid" "a@x.com" "password123").1)) =
    (.error .accountLocked, [lockUser 5 false], .error .invalidCredentials) := by
  rfl

/-- C2: the lockout update is not one atomic store operation: the trace of
`IncrementFailedAttempts` on a user with 4 failures contains an intermediate
state — after the increment statement, before the separate deactivation
statement — in which the stored counter is 5 while the account still reads as
active. -/
theorem incrementFailedAttempts_nonatomic_window :
    incrementFailedAttemptsTrace { users := [fourFailUser 4 true], sessions := [] } 1 =
    [ { users := [fourFailUser 4 true], sessions := [] },
      { users := [fourFailUser 5 true], sessions := [] },
      { users := [fourFailUser 5 false], sessions := [] } ] := by
  rfl

/-- C5 counterexample: with limit 1 and window 60, a request at t = 0 is
admitted; at t = 60 the window has elapsed in the claim's sense
(now − windowStart = 60 ≥ 60), so the claim requires the next request to be
admitted — but `isAllowed` only resets when strictly more than the timeframe
has passed (`now.Sub(lastAccess) > timeframe`), so the request is rejected. -/
theorem isAllowed_rejects_at_window_boundary :
    (isAllowed (newRateLimiter 1 60) 0 "a").2 = true ∧
    lookupVisitor (isAllowed (newRateLimiter 1 60) 0 "a").1.visitors "a" =
      some { count := 1, lastAccess := 0 } ∧
    (isAllowed (isAllowed (newRateLimiter 1 60) 0 "a").1 60 "a").2 = false := by
  exact ⟨rfl, rfl, rfl⟩

/-- C10: a token signed with the configured secret and algorithm, not expired,
but carrying no string `jti` claim, makes both `ValidateToken` and
`LogoutUser` undefined (`none`, the panic of the unchecked type assertion
`claims["jti"].(string)`) rather than any typed outcome; the third conjunct
shows the token does parse successfully, so the failure is past all the
defined error paths. -/
theorem validateToken_missing_jti_is_partial :
    validateToken { users := [], sessions := [] } "secret" 0
        (signToken "secret" .hs256 [("exp", .int 100)]) = none ∧
    logoutUser { users := [], sessions := [] } "secret" 0
        (signToken "secret" .hs256 [("exp", .int 100)]) = none ∧
    jwtParseHMAC "secret" 0 (signToken "secret" .hs256 [("exp", .int 100)]) =
      .ok [("exp", .int 100)] := by
  exact ⟨rfl, rfl, rfl⟩

/-- C3: a successful login resets the failure counter to 0.  For any account
with a correct password `pw` and any failing password `wrongPw`, the history
4 failures → 1 success → 4 failures leaves the success-state counter at 0 and
the final counter at 4 with the account still active (not locked). -/
theorem loginUser_success_resets_failed_attempts
    (uid : Int) (email digest pw wrongPw secret jS jF : String) (tS tF : Int)
    (hok : bcryptCompare digest pw = true)
    (hbad : bcryptCompare digest wrongPw = false) :
    (let st0 : Store := { users := [mkUser uid email digest 0 true none], sessions := [] }
     let fail := fun st => (loginUser st secret tF jF email wrongPw).2
     let st4 := fail (fail (fail (fail st0)))
     let afterS := loginUser st4 secret tS jS email pw
     let st9 := fail (fail (fail (fail afterS.2)))
     (∃ tok, afterS.1 = Except.ok tok) ∧
       afterS.2.users = [mkUser uid email digest 0 true (some tS)] ∧
       st9.users = [mkUser uid email digest 4 true (some tS)]) := by
  have f0 := loginUser_fail_step uid email digest wrongPw secret jF tF 0 (by omega) hbad none []
  have f1 := loginUser_fail_step uid email digest wrongPw secret jF tF 1 (by omega) hbad none []
  have f2 := loginUser_fail_step uid email digest wrongPw secret jF tF 2 (by omega) hbad none []
  have f3 := loginUser_fail_step uid email digest wrongPw secret jF tF 3 (by omega) hbad none []
  have fS := loginUser_success_step uid email digest pw secret jS tS 4 (by omega) hok none []
  have g0 := loginUser_fail_step uid email digest wrongPw secret jF tF 0 (by omega) hbad
    (some tS) [mkSession uid jS (tS + tokenExpiry) false]
  have g1 := loginUser_fail_step uid email digest wrongPw secret jF tF 1 (by omega) hbad
    (some tS) [mkSession uid jS (tS + tokenExpiry) false]
  have g2 := loginUser_fail_step uid email digest wrongPw secret jF tF 2 (by omega) hbad
    (some tS) [mkSession uid jS (tS + tokenExpiry) false]
  have g3 := loginUser_fail_step uid email digest wrongPw secret jF tF 3 (by omega) hbad
    (some tS) [mkSession uid jS (tS + tokenExpiry) false]
  simp [f0, f1, f2, f3, fS, g0, g1, g2, g3]

lemma isAllowed_limit_eq (rl : RateLimiter) (now : Int) (ip : String) :
    (isAllowed rl now ip).1.limit = rl.limit := by
  unfold isAllowed
  cases lookupVisitor rl.visitors ip with
  | none => rfl
  | some v =>
    by_cases h1 : rl.timeframe < now - v.lastAccess
    · simp [h1]
    · by_cases h2 : rl.limit ≤ v.count <;> simp [h1, h2]

lemma isAllowed_preserves_count_le (rl : RateLimiter) (now : Int) (ip : String)
    (h1 : 1 ≤ rl.limit) (h : ∀ p ∈ rl.visitors, p.2.count ≤ rl.limit) :
    ∀ p ∈ (isAllowed rl now ip).1.visitors, p.2.count ≤ rl.limit := by
  intro p hp
  unfold isAllowed at hp
  cases hv : lookupVisitor rl.visitors ip with
  | none =>
    rw [hv] at hp
    simp only [List.mem_append, List.mem_singleton] at hp
    rcases hp with hp | hp
    · exact h p hp
    · subst hp; simpa using h1
  | some v =>
    rw [hv] at hp
    by_cases hreset : rl.timeframe < now - v.lastAccess
    · simp only [if_pos hreset, updateVisitor, List.mem_map] at hp
      obtain ⟨q, hq, hpq⟩ := hp
      by_cases hqip : q.1 == ip
      · rw [if_pos hqip] at hpq; subst hpq; simpa using h1
      · rw [if_neg hqip] at hpq; subst hpq; exact h q hq
    · by_cases hlim : rl.limit ≤ v.count
      · simp only [if_neg hreset, if_pos hlim] at hp
        exact h p hp
      · simp only [if_neg hreset, if_neg hlim, updateVisitor, List.mem_map] at hp
        obtain ⟨q, hq, hpq⟩ := hp
        by_cases hqip : q.1 == ip
        · rw [if_pos hqip] at hpq; subst hpq
          simp only
          omega
        · rw [if_neg hqip] at hpq; subst hpq; exact h q hq

lemma runLimiter_preserves_count_le (reqs : List (Int × String)) :
    ∀ rl : RateLimiter, 1 ≤ rl.limit → (∀ p ∈ rl.visitors, p.2.count ≤ rl.limit) →
    ∀ p ∈ (runLimiter rl reqs).1.visitors, p.2.count ≤ rl.limit := by
  induction reqs with
  | nil =>
    intro rl h1 h p hp
    simpa [runLimiter] using h p hp
  | cons r rest ih =>
    obtain ⟨now, ip⟩ := r
    intro rl h1 h p hp
    rw [runLimiter] at hp
    simp only at hp
    have hlim := isAllowed_limit_eq rl now ip
    have step := isAllowed_preserves_count_le rl now ip h1 h
    have := ih (isAllowed rl now ip).1 (by rw [hlim]; exact h1)
      (fun q hq => by rw [hlim]; exact step q hq) p hp
    rwa [hlim] at this

/-- C9: starting from a fresh limiter with limit ≥ 1, no sequence of
`isAllowed` calls can drive any per-key counter above the limit: the counter
is incremented only when strictly below the limit, and resets store 1. -/
theorem rateLimiter_count_never_exceeds_limit (L W : Int) (hL : 1 ≤ L)
    (reqs : List (Int × String)) :
    ∀ p ∈ (runLimiter (newRateLimiter L W) reqs).1.visitors, p.2.count ≤ L :=
  runLimiter_preserves_count_le reqs (newRateLimiter L W) hL (by simp [newRateLimiter])

/-- Witness for the counter bound: limit 2, window 60, three requests from one
key; the final counter is 2 and the theorem bounds it by the limit. -/
theorem rateLimiter_count_never_exceeds_limit_witness :
    (1 : Int) ≤ 2 ∧
    ("a", ({ count := 2, lastAccess := 1 } : Visitor)) ∈
      (runLimiter (newRateLimiter 2 60) [(0, "a"), (1, "a"), (2, "a")]).1.visitors ∧
    (({ count := 2, lastAccess := 1 } : Visitor).count ≤ (2 : Int)) :=
  ⟨by decide, by decide,
   rateLimiter_count_never_exceeds_limit 2 60 (by decide) [(0, "a"), (1, "a"), (2, "a")]
     ("a", { count := 2, lastAccess := 1 }) (by decide)⟩

lemma lookupVisitor_update (m : List (String × Visitor)) (ip : String) (v' : Visitor)
    (h : (lookupVisitor m ip).isSome) :
    lookupVisitor (updateVisitor m ip v') ip = some v' := by
  induction m with
  | nil => simp [lookupVisitor] at h
  | cons q m ih =>
    by_cases hq : q.1 == ip
    · simp [lookupVisitor, updateVisitor, List.find?, hq]
    · simp only [lookupVisitor, updateVisitor, List.map_cons, if_neg hq] at h ⊢
      rw [List.find?_cons_of_neg _ (by simpa using hq)] at h ⊢
      exact ih h

lemma runLimiter_burst (L W : Int) (ip : String) :
    ∀ (ts : List Int) (c la : Int), 1 ≤ c → c ≤ L →
      List.Sorted (fun a b => a ≤ b) ts →
      (∀ x ∈ ts, la ≤ x ∧ x - la ≤ W) →
      (runLimiter
          { visitors := [(ip, { count := c, lastAccess := la })], limit := L, timeframe := W }
          (ts.map (fun x => (x, ip)))).2 =
        expectedAdmits (L - c).toNat ts.length := by
  intro ts
  induction ts with
  | nil =>
    intro c la h1 hc hs hw
    simp [runLimiter, expectedAdmits]
  | cons x ts ih =>
    intro c la h1 hc hs hw
    obtain ⟨hla, hxw⟩ := hw x (List.mem_cons_self x ts)
    rw [List.sorted_cons] at hs
    obtain ⟨hxle, hsort⟩ := hs
    have hlook : lookupVisitor [(ip, { count := c, lastAccess := la })] ip =
        some { count := c, lastAccess := la } := by
      simp [lookupVisitor, List.find?]
    have hnoreset : ¬ (W < x - la) := by omega
    rw [List.map_cons, runLimiter]
    by_cases hstop : L ≤ c
    · have hceq : c = L := le_antisymm hc hstop
      have hb : (L - c).toNat = 0 := by omega
      simp only [isAllowed, hlook, if_neg hnoreset, if_pos hstop]
      have hrec := ih c la h1 hc hsort
        (fun y hy => ⟨le_trans hla (hxle y hy), by
          have := (hw y (List.mem_cons_of_mem x hy)).2; omega⟩)
      simp only [hb] at hrec ⊢
      simp only [List.length_cons, expectedAdmits]
      exact congrArg (fun l => false :: l) hrec
    · have hclt : c < L := lt_of_not_le hstop
      have hb : (L - c).toNat = (L - (c + 1)).toNat + 1 := by omega
      simp only [isAllowed, hlook, if_neg hnoreset, if_neg hstop]
      have hupd : updateVisitor [(ip, { count := c, lastAccess := la })] ip
          { count := c + 1, lastAccess := x } =
          [(ip, { count := c + 1, lastAccess := x })] := by
        simp [updateVisitor]
      simp only [hupd]
      have hrec := ih (c + 1) x (by omega) (by omega) hsort
        (fun y hy => ⟨hxle y hy, by
          have := (hw y (List.mem_cons_of_mem x hy)).2; omega⟩)
      simp only [List.length_cons, hb, expectedAdmits]
      exact congrArg (fun l => true :: l) hrec

/-- C5 amended: (1) starting fresh, with limit L ≥ 1, for any nondecreasing
request times all within `windowSize` of the first, exactly the first L
requests are admitted and every further one is rejected; (2) the window
restarts — count reset to 1, request admitted — once strictly more than the
timeframe has elapsed since the last admitted request (`lastAccess`), which is
the code's reset condition (`now.Sub(lastAccess) > timeframe`). -/
theorem rateLimiter_window_behaviour :
    (∀ (L W : Int) (ip : String) (t0 : Int) (rest : List Int),
       1 ≤ L → List.Sorted (fun a b => a ≤ b) (t0 :: rest) →
       (∀ x ∈ rest, x ≤ t0 + W) →
       (runLimiter (newRateLimiter L W) ((t0 :: rest).map (fun x => (x, ip)))).2 =
         expectedAdmits L.toNat (rest.length + 1)) ∧
    (∀ (rl : RateLimiter) (now : Int) (ip : String) (v : Visitor),
       lookupVisitor rl.visitors ip = some v → rl.timeframe < now - v.lastAccess →
       (isAllowed rl now ip).2 = true ∧
       lookupVisitor (isAllowed rl now ip).1.visitors ip =
         some { count := 1, lastAccess := now }) := by
  constructor
  · intro L W ip t0 rest hL hs hwin
    rw [List.sorted_cons] at hs
    obtain ⟨ht0, hsort⟩ := hs
    rw [List.map_cons, runLimiter]
    have hlook : lookupVisitor (newRateLimiter L W).visitors ip = none := by
      simp [newRateLimiter, lookupVisitor]
    simp only [isAllowed, hlook, newRateLimiter, List.nil_append]
    have hrec := runLimiter_burst L W ip rest 1 t0 le_rfl hL hsort
      (fun y hy => ⟨ht0 y hy, by have := hwin y hy; omega⟩)
    have hb : L.toNat = (L - 1).toNat + 1 := by omega
    simp only [List.length_cons, hb, expectedAdmits]
    exact congrArg (fun l => true :: l) hrec
  · intro rl now ip v hv hreset
    constructor
    · simp [isAllowed, hv, hreset]
    · simp only [isAllowed, hv, if_pos hreset]
      exact lookupVisitor_update rl.visitors ip _ (by rw [hv]; rfl)


/-- Witness for the amended window behaviour: limit 2, window 60, requests at
0, 10, 20 from one key — the first two are admitted, the third rejected. -/
theorem rateLimiter_window_behaviour_witness :
    List.Sorted (fun a b : Int => a ≤ b) (0 :: [10, 20]) ∧
    (runLimiter (newRateLimiter 2 60) ((0 :: [10, 20]).map (fun x => (x, "a")))).2 =
      expectedAdmits (2 : Int).toNat ([10, 20].length + 1) :=
  ⟨by decide,
   rateLimiter_window_behaviour.1 2 60 "a" 0 [10, 20] (by decide) (by decide) (by decide)⟩

/-- Witness for the counter-reset scenario: concrete instantiation of the
4-fail / success / 4-fail history. -/
theorem loginUser_success_resets_failed_attempts_witness :
    bcryptCompare (bcryptHash "pw") "pw" = true ∧
    bcryptCompare (bcryptHash "pw") "xx" = false ∧
    (let st0 : Store := { users := [mkUser 1 "a@x.com" (bcryptHash "pw") 0 true none], sessions := [] }
     let fail := fun st => (loginUser st "k" 7 "jF" "a@x.com" "xx").2
     let st4 := fail (fail (fail (fail st0)))
     let afterS := loginUser st4 "k" 9 "jS" "a@x.com" "pw"
     let st9 := fail (fail (fail (fail afterS.2)))
     (∃ tok, afterS.1 = Except.ok tok) ∧
       afterS.2.users = [mkUser 1 "a@x.com" (bcryptHash "pw") 0 true (some 9)] ∧
       st9.users = [mkUser 1 "a@x.com" (bcryptHash "pw") 4 true (some 9)]) :=
  ⟨by decide, by decide,
   loginUser_success_resets_failed_attempts 1 "a@x.com" (bcryptHash "pw") "pw" "xx"
     "k" "jS" "jF" 9 7 (by decide) (by decide)⟩

/-- C4: `IsSessionValid` characterization.  Under the data-model invariant
that token ids are unique: the call never errors; it answers true iff a
session with the token id exists, is not revoked, and `now` is strictly
before its expiry; an unknown token id yields `(false, nil)`; and a session
checked exactly at its expiry instant is already invalid (expiry exclusive). -/
theorem isSessionValid_characterization (st : Store) (now : Int) (tid : String)
    (hN : (st.sessions.map (fun s => s.tokenId)).Nodup) :
    (∃ b, isSessionValid st now tid = .ok b) ∧
    (isSessionValid st now tid = .ok true ↔
      ∃ s ∈ st.sessions, s.tokenId = tid ∧ s.isRevoked = false ∧ now < s.expiresAt) ∧
    ((∀ s ∈ st.sessions, s.tokenId ≠ tid) → isSessionValid st now tid = .ok false) ∧
    (∀ s ∈ st.sessions, s.tokenId = tid → s.expiresAt = now →
      isSessionValid st now tid = .ok false) := by
  have hiff : isSessionValid st now tid = .ok true ↔
      ∃ s ∈ st.sessions, s.tokenId = tid ∧ s.isRevoked = false ∧ now < s.expiresAt := by
    constructor
    · intro h
      unfold isSessionValid at h
      cases hf : st.sessions.find? (fun s => s.tokenId == tid) with
      | none => rw [hf] at h; simp at h
      | some s =>
        rw [hf] at h
        have hmem := List.mem_of_find?_eq_some hf
        have hpred := List.find?_some hf
        simp only [Except.ok.injEq, Bool.and_eq_true, Bool.not_eq_true',
          decide_eq_true_eq] at h
        exact ⟨s, hmem, by simpa using hpred, h.1, h.2⟩
    · rintro ⟨s, hmem, htid, hrev, hexp⟩
      unfold isSessionValid
      cases hf : st.sessions.find? (fun s => s.tokenId == tid) with
      | none =>
        exact absurd (List.find?_eq_none.1 hf s hmem) (by simp [htid])
      | some s₂ =>
        have hmem₂ := List.mem_of_find?_eq_some hf
        have htid₂ : s₂.tokenId = tid := by simpa using List.find?_some hf
        have hs : s₂ = s :=
          List.inj_on_of_nodup_map hN hmem₂ hmem (by rw [htid₂, htid])
        subst hs
        simp [hrev, hexp]
  refine ⟨?_, hiff, ?_, ?_⟩
  · unfold isSessionValid
    cases st.sessions.find? (fun s => s.tokenId == tid) with
    | none => exact ⟨false, rfl⟩
    | some s => exact ⟨_, rfl⟩
  · intro h
    unfold isSessionValid
    rw [List.find?_eq_none.2 (fun s hs => by simp [h s hs])]
  · intro s hmem htid hexp
    cases hb : isSessionValid st now tid with
    | error e =>
      exfalso
      unfold isSessionValid at hb
      cases hf : st.sessions.find? (fun s => s.tokenId == tid) with
      | none => rw [hf] at hb; simp at hb
      | some s₂ => rw [hf] at hb; simp at hb
    | ok b =>
      cases b with
      | false => rfl
      | true =>
        obtain ⟨s₂, hmem₂, htid₂, hrev₂, hexp₂⟩ := hiff.1 hb
        have hs : s₂ = s :=
          List.inj_on_of_nodup_map hN hmem₂ hmem (by rw [htid₂, htid])
        subst hs
        omega

/-- Witness for the session-validity characterization: a live unexpired
session is reported valid. -/
theorem isSessionValid_characterization_witness :
    (([mkSession 1 "t1" 100 false]).map (fun s => s.tokenId)).Nodup ∧
    isSessionValid { users := [], sessions := [mkSession 1 "t1" 100 false] } 5 "t1" =
      .ok true :=
  ⟨by decide,
   (isSessionValid_characterization
       { users := [], sessions := [mkSession 1 "t1" 100 false] } 5 "t1" (by decide)).2.1.mpr
     ⟨mkSession 1 "t1" 100 false, by decide, by decide, by decide, by decide⟩⟩

lemma jwtParseHMAC_ok_inv (key : String) (now : Int) (t : Token) (cs : Claims)
    (h : jwtParseHMAC key now t = .ok cs) :
    cs = t.claims ∧ t.alg = Alg.hs256 ∧ t.mac = macOf key t.alg t.claims ∧
      (∀ e : Int, lookupClaim t.claims "exp" = some (.int e) → now < e) := by
  unfold jwtParseHMAC at h
  by_cases h1 : t.alg != Alg.hs256
  · rw [if_pos h1] at h; simp at h
  · rw [if_neg h1] at h
    by_cases h2 : t.mac != macOf key t.alg t.claims
    · rw [if_pos h2] at h; simp at h
    · rw [if_neg h2] at h
      refine ⟨?_, by simpa using h1, by simpa using h2, ?_⟩
      · cases he : lookupClaim t.claims "exp" with
        | none => simp only [he] at h; simpa using h.symm
        | some v =>
          simp only [he] at h
          cases v with
          | str s => simp at h
          | int e =>
            replace h : (if now < e then ParseResult.ok t.claims else ParseResult.expired) =
                ParseResult.ok cs := h
            by_cases hlt : now < e
            · rw [if_pos hlt] at h; simpa using h.symm
            · rw [if_neg hlt] at h; simp at h
      · intro e he
        simp only [he] at h
        replace h : (if now < e then ParseResult.ok t.claims else ParseResult.expired) =
            ParseResult.ok cs := h
        by_cases hlt : now < e
        · exact hlt
        · rw [if_neg hlt] at h; simp at h

lemma find?_revokeAll (l : List Session) (j : String) (s : Session)
    (h : (l.map (fun s => if s.tokenId == j then { s with isRevoked := true } else s)).find?
        (fun s => s.tokenId == j) = some s) :
    s.isRevoked = true := by
  have hmem := List.mem_of_find?_eq_some h
  have hpred := List.find?_some h
  simp only [List.mem_map] at hmem
  obtain ⟨q, hq, hqs⟩ := hmem
  by_cases hj : q.tokenId == j
  · rw [if_pos hj] at hqs; rw [← hqs]
  · rw [if_neg hj] at hqs
    rw [← hqs] at hpred
    exact absurd hpred (by simpa using hj)

lemma isSessionValid_after_revoke (us : List User) (l : List Session) (j : String) (now' : Int) :
    isSessionValid
      { users := us,
        sessions := l.map (fun s => if s.tokenId == j then { s with isRevoked := true } else s) }
      now' j = .ok false := by
  unfold isSessionValid
  cases hf : (l.map (fun s => if s.tokenId == j then { s with isRevoked := true } else s)).find?
      (fun s => s.tokenId == j) with
  | none => rfl
  | some s =>
    have := find?_revokeAll l j s hf
    simp [this]

/-- C6: once a logout has revoked a token's session, every later
`ValidateToken` call on that token is rejected (never succeeds; while the
token is not yet expired the error is exactly `ErrInvalidToken`); and
`RevokeSession` reports `ErrSessionNotFound` exactly when no session with the
token id exists in the store — revoking an already-revoked session still
matches its row and therefore never reports `ErrSessionNotFound`. -/
theorem logout_revocation_properties
    (st st' : Store) (secret : String) (now : Int) (t : Token)
    (h : logoutUser st secret now t = some (.ok st')) :
    (∀ (now' : Int) (cs : Claims), validateToken st' secret now' t ≠ some (.ok cs)) ∧
    (∀ (now' e : Int), lookupClaim t.claims "exp" = some (.int e) → now' < e →
      validateToken st' secret now' t = some (.error .invalidToken)) ∧
    (∀ (st2 : Store) (tid : String),
      revokeSession st2 tid = .error .sessionNotFound ↔ ∀ s ∈ st2.sessions, s.tokenId ≠ tid) := by
  -- decompose the successful logout
  unfold logoutUser at h
  cases hp : jwtParseHMAC secret now t with
  | expired => simp only [hp] at h; simp at h
  | malformed => simp only [hp] at h; simp at h
  | ok cs =>
  simp only [hp] at h
  obtain ⟨hcs, halg, hmac, -⟩ := jwtParseHMAC_ok_inv secret now t cs hp
  subst hcs
  cases hj : claimAsString (lookupClaim t.claims "jti") with
  | none => simp only [hj] at h; exact Option.noConfusion h
  | some j =>
  simp only [hj] at h
  cases hsv : isSessionValid st now j with
  | error e => simp only [hsv] at h; simp at h
  | ok b =>
  cases b with
  | false => simp only [hsv] at h; simp at h
  | true =>
  simp only [hsv] at h
  cases hrv : revokeSession st j with
  | error e => simp only [hrv] at h; simp at h
  | ok st2 =>
  simp only [hrv, Option.some.injEq, Except.ok.injEq] at h
  subst h
  unfold revokeSession at hrv
  by_cases hany : st.sessions.any (fun s => s.tokenId == j)
  · rw [if_pos hany] at hrv
    simp only [Except.ok.injEq] at hrv
    subst hrv
    refine ⟨?_, ?_, ?_⟩
    · intro now' cs' hcon
      unfold validateToken at hcon
      cases hp' : jwtParseHMAC secret now' t with
      | expired => simp only [hp'] at hcon; simp at hcon
      | malformed => simp only [hp'] at hcon; simp at hcon
      | ok cs'' =>
        obtain ⟨hcs'', -, -, -⟩ := jwtParseHMAC_ok_inv secret now' t cs'' hp'
        subst hcs''
        simp only [hp', hj, isSessionValid_after_revoke] at hcon
        simp at hcon
    · intro now' e hexp hlt
      have hp' : jwtParseHMAC secret now' t = .ok t.claims := by
        unfold jwtParseHMAC
        rw [if_neg (by simp [halg]), if_neg (by simp [hmac]), hexp]
        show (if now' < e then ParseResult.ok t.claims else ParseResult.expired) =
          ParseResult.ok t.claims
        rw [if_pos hlt]
      simp only [validateToken, hp', hj, isSessionValid_after_revoke]
    · intro st2 tid
      unfold revokeSession
      by_cases hany2 : st2.sessions.any (fun s => s.tokenId == tid)
      · rw [if_pos hany2]
        simp only [List.any_eq_true] at hany2
        obtain ⟨s, hs, hst⟩ := hany2
        constructor
        · intro hcon; simp at hcon
        · intro hall
          exact absurd hst (by simpa using hall s hs)
      · rw [if_neg hany2]
        simp only [List.any_eq_true, not_exists, not_and] at hany2
        constructor
        · intro _ s hs
          have := hany2 s hs
          simpa using this
        · intro _; rfl
  · rw [if_neg hany] at hrv; simp at hrv

/-- Witness: a live session, its token logged out, then validated — the
validation is rejected as invalid. -/
theorem logout_revocation_properties_witness :
    logoutUser { users := [], sessions := [mkSession 1 "j1" 100 false] } "k" 10
        (signToken "k" .hs256 [("exp", .int 100), ("jti", .str "j1")]) =
      some (.ok { users := [], sessions := [mkSession 1 "j1" 100 true] }) ∧
    validateToken { users := [], sessions := [mkSession 1 "j1" 100 true] } "k" 50
        (signToken "k" .hs256 [("exp", .int 100), ("jti", .str "j1")]) =
      some (.error .invalidToken) :=
  ⟨by rfl,
   (logout_revocation_properties
       { users := [], sessions := [mkSession 1 "j1" 100 false] }
       { users := [], sessions := [mkSession 1 "j1" 100 true] }
       "k" 10 (signToken "k" .hs256 [("exp", .int 100), ("jti", .str "j1")])
       (by rfl)).2.1 50 100 (by rfl) (by decide)⟩

lemma lookupClaim_loginClaims_sub (uid : Int) (email : String) (e : Int) (j : String) :
    lookupClaim (loginClaims uid email e j) "sub" = some (.int uid) := rfl

lemma lookupClaim_loginClaims_exp (uid : Int) (email : String) (e : Int) (j : String) :
    lookupClaim (loginClaims uid email e j) "exp" = some (.int e) := rfl

lemma claimAsString_loginClaims_jti (uid : Int) (email : String) (e : Int) (j : String) :
    claimAsString (lookupClaim (loginClaims uid email e j) "jti") = some j := rfl

/-- C8: `ValidateToken` error paths.  (1) A token whose header algorithm is
not the configured HMAC method is rejected with `ErrInvalidToken` regardless
of anything else (algorithm-confusion guard); (2) a token with the right
algorithm but a signature that does not verify is rejected with
`ErrInvalidToken` (the malformed-token outcome); (3) a well-signed HMAC token
whose `exp` is in the past is rejected with `ErrTokenExpired`. -/
theorem validateToken_error_paths (st : Store) (secret : String) (now : Int) (t : Token) :
    (t.alg ≠ Alg.hs256 → validateToken st secret now t = some (.error .invalidToken)) ∧
    (t.alg = Alg.hs256 → t.mac ≠ macOf secret t.alg t.claims →
      validateToken st secret now t = some (.error .invalidToken)) ∧
    (t.alg = Alg.hs256 → t.mac = macOf secret t.alg t.claims →
      ∀ e : Int, lookupClaim t.claims "exp" = some (.int e) → e < now →
      validateToken st secret now t = some (.error .tokenExpired)) := by
  refine ⟨?_, ?_, ?_⟩
  · intro halg
    have hp : jwtParseHMAC secret now t = .malformed := by
      unfold jwtParseHMAC
      rw [if_pos (by simpa using halg)]
    simp only [validateToken, hp]
  · intro halg hmac
    have hp : jwtParseHMAC secret now t = .malformed := by
      unfold jwtParseHMAC
      rw [if_neg (by simp [halg]), if_pos (by simpa using hmac)]
    simp only [validateToken, hp]
  · intro halg hmac e hexp hlt
    have hp : jwtParseHMAC secret now t = .expired := by
      unfold jwtParseHMAC
      rw [if_neg (by simp [halg]), if_neg (by simp [hmac]), hexp]
      show (if now < e then ParseResult.ok t.claims else ParseResult.expired) =
        ParseResult.expired
      rw [if_neg (by omega)]
    simp only [validateToken, hp]

/-- Witness for the token error paths: a non-HMAC token is invalid, and a
well-signed but expired token reports expiry. -/
theorem validateToken_error_paths_witness :
    (Token.mk Alg.rs256 [] "m").alg ≠ Alg.hs256 ∧
    validateToken { users := [], sessions := [] } "k" 0 (Token.mk Alg.rs256 [] "m") =
      some (.error .invalidToken) ∧
    validateToken { users := [], sessions := [] } "k" 50
        (signToken "k" Alg.hs256 [("exp", .int 10), ("jti", .str "t")]) =
      some (.error .tokenExpired) :=
  ⟨by decide,
   (validateToken_error_paths { users := [], sessions := [] } "k" 0
       (Token.mk Alg.rs256 [] "m")).1 (by decide),
   (validateToken_error_paths { users := [], sessions := [] } "k" 50
       (signToken "k" Alg.hs256 [("exp", .int 10), ("jti", .str "t")])).2.2
     rfl rfl 10 (by rfl) (by decide)⟩

/-- C7: round-trip.  A token produced by a successful `LoginUser` call and
validated before its expiry and before any revocation is accepted, and its
claims' subject is the id of the account that logged in. -/
theorem login_token_roundtrip
    (st : Store) (u : User) (secret email pw jti : String) (now now' : Int)
    (hu : getUserByEmail st email = .ok u)
    (hn : u.failedAttempts < 5)
    (hp : bcryptCompare u.password pw = true)
    (hfresh : ∀ s ∈ st.sessions, s.tokenId ≠ jti)
    (hnow : now' < now + tokenExpiry) :
    ∃ (tok : Token) (st' : Store),
      loginUser st secret now jti email pw = (.ok tok, st') ∧
      validateToken st' secret now' tok = some (.ok tok.claims) ∧
      lookupClaim tok.claims "sub" = some (.int u.id) := by
  have h5 : ¬ (5 : Int) ≤ u.failedAttempts := by omega
  refine ⟨signToken secret .hs256 (loginClaims u.id u.email (now + tokenExpiry) jti),
    createSession (updateLastLogin st u.id now) u.id jti (now + tokenExpiry), ?_, ?_, ?_⟩
  · simp only [loginUser, hu, h5, hp, if_true, if_false, ite_true, ite_false]
  · have hp2 : jwtParseHMAC secret now'
        (signToken secret .hs256 (loginClaims u.id u.email (now + tokenExpiry) jti)) =
        .ok (loginClaims u.id u.email (now + tokenExpiry) jti) := by
      unfold jwtParseHMAC
      rw [if_neg (by simp [signToken]), if_neg (by simp [signToken])]
      show (match lookupClaim (loginClaims u.id u.email (now + tokenExpiry) jti) "exp" with
        | some (.int e) =>
            if now' < e then
              ParseResult.ok (loginClaims u.id u.email (now + tokenExpiry) jti)
            else ParseResult.expired
        | some _ => ParseResult.malformed
        | none => ParseResult.ok (loginClaims u.id u.email (now + tokenExpiry) jti)) = _
      rw [lookupClaim_loginClaims_exp]
      show (if now' < now + tokenExpiry then
          ParseResult.ok (loginClaims u.id u.email (now + tokenExpiry) jti)
        else ParseResult.expired) = _
      rw [if_pos hnow]
    have hnone : st.sessions.find? (fun s => s.tokenId == jti) = none :=
      List.find?_eq_none.2 (fun s hs => by simpa using hfresh s hs)
    show validateToken (createSession (updateLastLogin st u.id now) u.id jti (now + tokenExpiry))
        secret now'
        (signToken secret .hs256 (loginClaims u.id u.email (now + tokenExpiry) jti)) =
      some (.ok (loginClaims u.id u.email (now + tokenExpiry) jti))
    simp only [validateToken, hp2, claimAsString_loginClaims_jti]
    simp only [isSessionValid, createSession, updateLastLogin, List.find?_append, hnone,
      Option.or, List.find?, beq_self_eq_true, mkSession]
    simp [hnow]
  · exact lookupClaim_loginClaims_sub u.id u.email (now + tokenExpiry) jti

/-- Witness for the round-trip: a concrete account logs in at time 0 and the
token validates at time 10. -/
theorem login_token_roundtrip_witness :
    getUserByEmail
        { users := [mkUser 1 "a@x.com" (bcryptHash "pw") 0 true none], sessions := [] }
        "a@x.com" = .ok (mkUser 1 "a@x.com" (bcryptHash "pw") 0 true none) ∧
    (∃ (tok : Token) (st' : Store),
      loginUser { users := [mkUser 1 "a@x.com" (bcryptHash "pw") 0 true none], sessions := [] }
          "k" 0 "j1" "a@x.com" "pw" = (.ok tok, st') ∧
      validateToken st' "k" 10 tok = some (.ok tok.claims) ∧
      lookupClaim tok.claims "sub" =
        some (.int (mkUser 1 "a@x.com" (bcryptHash "pw") 0 true none).id)) :=
  ⟨by rfl,
   login_token_roundtrip
     { users := [mkUser 1 "a@x.com" (bcryptHash "pw") 0 true none], sessions := [] }
     (mkUser 1 "a@x.com" (bcryptHash "pw") 0 true none)
     "k" "a@x.com" "pw" "j1" 0 10
     (by rfl) (by decide) (by decide) (by simp) (by decide)⟩

end GoAuth
